import Mathlib

/-!
Verification of the Pomodoro timer core: the session state machine
(`App` in the main application file), the radial angle mapper
(`ConfigDial.tsx`) and the manual numeric entry handler
(`TimeInputModal`).  All numeric state fields are JavaScript numbers
holding integer values; they are embedded as `Int`.  The persistence
layer is embedded as an explicit record holding the two per-mode
duration keys; values absent from `localStorage` are `none`.
-/

namespace Pomodoro

/-- `TimerMode`: `'focus' | 'break'` (from `types.ts`).  `break` is a
Lean keyword, so the break mode is named `brk`. -/
inductive TimerMode where
  | focus
  | brk
deriving DecidableEq, Repr

/-- `TimerStatus`: `'idle' | 'running' | 'paused' | 'alarm'` (from `types.ts`). -/
inductive TimerStatus where
  | idle
  | running
  | paused
  | alarm
deriving DecidableEq, Repr

/-- `TimerState` (from `types.ts`). -/
structure TimerState where
  mode : TimerMode
  status : TimerStatus
  configOpen : Bool
  duration : Int
  remainingTime : Int
  sessionsCount : Int
  totalFocusTime : Int
  totalBreakTime : Int
  focusCompletedInCurrentCycle : Bool
deriving DecidableEq, Repr

/-- The duration store: the two `localStorage` keys
`pomodoro_focus_duration` and `pomodoro_break_duration`, `none` when the
key is absent. -/
structure Store where
  focusDur : Option Int
  breakDur : Option Int
deriving DecidableEq, Repr

/-- `localStorage.getItem(STORAGE_KEYS[mode])`, already parsed. -/
def Store.get (st : Store) : TimerMode → Option Int
  | .focus => st.focusDur
  | .brk => st.breakDur

/-- `localStorage.setItem(STORAGE_KEYS[mode], v.toString())`. -/
def Store.set (st : Store) (m : TimerMode) (v : Int) : Store :=
  match m with
  | .focus => { st with focusDur := some v }
  | .brk => { st with breakDur := some v }

/-- `DEFAULTS = { focus: 25 * 60, break: 5 * 60 }`. -/
def DEFAULTS : TimerMode → Int
  | .focus => 25 * 60
  | .brk => 5 * 60

/-- `getSavedDuration(mode)`: the saved value when the key is present,
otherwise the factory default. -/
def getSavedDuration (st : Store) (m : TimerMode) : Int :=
  (st.get m).getD (DEFAULTS m)

/-- `Math.floor(a / 60)` on an integer-valued JS number: floor division. -/
def jsFloorDiv60 (a : Int) : Int := Int.fdiv a 60

/-- The initial `TimerState` built in `useState` at the top of `App`:
mode focus, status idle, config closed, duration and remaining time from
the saved focus duration, statistics restored from storage (0/false when
absent). -/
def initState (st : Store) (savedSessions savedFocusTime savedBreakTime : Option Int)
    (savedCycleFlag : Bool) : TimerState :=
  let focusDuration := getSavedDuration st .focus
  { mode := .focus
    status := .idle
    configOpen := false
    duration := focusDuration
    remainingTime := focusDuration
    sessionsCount := savedSessions.getD 0
    totalFocusTime := savedFocusTime.getD 0
    totalBreakTime := savedBreakTime.getD 0
    focusCompletedInCurrentCycle := savedCycleFlag }

/-- `prev.mode === 'focus' ? 'break' : 'focus'`. -/
def otherMode : TimerMode → TimerMode
  | .focus => .brk
  | .brk => .focus

/-- `switchMode()`: flip the mode, load that mode's saved duration into
both `duration` and `remainingTime`, set status idle. -/
def switchMode (st : Store) (s : TimerState) : TimerState :=
  let newMode := otherMode s.mode
  let newDuration := getSavedDuration st newMode
  { s with
    mode := newMode
    status := .idle
    duration := newDuration
    remainingTime := newDuration }

/-- `tick()`: when `remainingTime <= 1` the countdown finishes — zero the
clock, enter alarm, and apply the completion bookkeeping; otherwise
decrement `remainingTime`. -/
def tick (s : TimerState) : TimerState :=
  if s.remainingTime ≤ 1 then
    let isFocusFinish : Bool := decide (s.mode = TimerMode.focus)
    let newSessionsCount :=
      if isFocusFinish then s.sessionsCount
      else if s.focusCompletedInCurrentCycle then s.sessionsCount + 1
      else s.sessionsCount
    let newFocusCompletedFlag :=
      if isFocusFinish then true
      else if s.focusCompletedInCurrentCycle then false
      else s.focusCompletedInCurrentCycle
    { s with
      remainingTime := 0
      status := .alarm
      sessionsCount := newSessionsCount
      focusCompletedInCurrentCycle := newFocusCompletedFlag
      totalFocusTime :=
        if isFocusFinish then s.totalFocusTime + jsFloorDiv60 s.duration
        else s.totalFocusTime
      totalBreakTime :=
        if ¬isFocusFinish then s.totalBreakTime + jsFloorDiv60 s.duration
        else s.totalBreakTime }
  else
    { s with remainingTime := s.remainingTime - 1 }

/-- `toggleTimer()`: acknowledge an alarm by switching mode; otherwise
close the config overlay and flip between running and paused/idle. -/
def toggleTimer (st : Store) (s : TimerState) : TimerState :=
  if s.status = TimerStatus.alarm then
    switchMode st s
  else
    { s with
      configOpen := false
      status := if s.status = TimerStatus.running then .paused else .running }

/-- `resetTimer()`: with the config overlay open, restore and persist the
factory default for the current mode; otherwise restore `remainingTime`
to the current `duration`.  Returns the new state and the new store. -/
def resetTimer (st : Store) (s : TimerState) : TimerState × Store :=
  if s.configOpen then
    let factoryDefault := DEFAULTS s.mode
    ({ s with
       status := .idle
       duration := factoryDefault
       remainingTime := factoryDefault
       focusCompletedInCurrentCycle := false },
     st.set s.mode factoryDefault)
  else
    ({ s with
       status := .idle
       remainingTime := s.duration
       focusCompletedInCurrentCycle := false },
     st)

/-- `skipTimer()`: clear the cycle flag, then `switchMode()`. -/
def skipTimer (st : Store) (s : TimerState) : TimerState :=
  switchMode st { s with focusCompletedInCurrentCycle := false }

/-- `openConfig()`: open the overlay, pause, show the full duration. -/
def openConfig (s : TimerState) : TimerState :=
  { s with
    configOpen := true
    status := .paused
    remainingTime := s.duration }

/-- `closeConfig()`: close the overlay, everything else untouched. -/
def closeConfig (s : TimerState) : TimerState :=
  { s with configOpen := false }

/-- `updateDuration(newMinutes)`: `newSeconds` is 1 when `newMinutes` is 0,
otherwise `newMinutes * 60`; the store receives `newMinutes * 60`
(exactly as in the source, which persists `(newMinutes * 60).toString()`
rather than `newSeconds`). -/
def updateDuration (newMinutes : Int) (st : Store) (s : TimerState) :
    TimerState × Store :=
  let newSeconds := if newMinutes = 0 then 1 else newMinutes * 60
  ({ s with
     duration := newSeconds
     remainingTime := newSeconds
     status := .idle
     focusCompletedInCurrentCycle := false },
   st.set s.mode (newMinutes * 60))

/-- `clearStats()`: zero the four statistics fields; the duration keys of
the store are untouched. -/
def clearStats (s : TimerState) : TimerState :=
  { s with
    sessionsCount := 0
    totalFocusTime := 0
    totalBreakTime := 0
    focusCompletedInCurrentCycle := false }

/-! ### Angle mapper (`ConfigDial.tsx`) -/

/-- `Math.round` on a rational: floor of `q + 1/2` (JS rounds half toward
positive infinity). -/
def jsRound (q : ℚ) : Int := Int.floor (q + 1 / 2)

/-- `getAngleForMinutes(mins) = (mins % 60) * 6`; the JS `%` operator is
truncating remainder (`Int.tmod`). -/
def getAngleForMinutes (mins : Int) : Int :=
  Int.tmod mins 60 * 6

/-- `getMinutesForAngle(angle)`: round `angle / 6`, treat a raw 0 as 60,
then clamp to `[minVal, maxVal]` via `Math.min(Math.max(mins, minVal), maxVal)`. -/
def getMinutesForAngle (angle : ℚ) (minVal maxVal : Int) : Int :=
  let mins := jsRound (angle / 6)
  let mins := if mins = 0 then 60 else mins
  min (max mins minVal) maxVal

/-- The dial's hard-coded bounds: `minVal = isFocus ? 5 : 1`. -/
def dialMin : TimerMode → Int
  | .focus => 5
  | .brk => 1

/-- The dial's hard-coded bounds: `maxVal = isFocus ? 60 : 30`. -/
def dialMax : TimerMode → Int
  | .focus => 60
  | .brk => 30

/-! ### Manual numeric entry (`TimeInputModal`) -/

/-- Outcome of `handleSubmit`: either an error message is surfaced, or
`onConfirm(mins)` is invoked with the accepted minutes. -/
inductive SubmitResult where
  | rejected (message : String)
  | confirmed (mins : Int)
deriving DecidableEq, Repr

/-- `handleSubmit` of `TimeInputModal`: `parsed` is the result of
`parseInt(value, 10)` (`none` for NaN).  With fewer than six title
clicks the value must lie within the mode's bounds; with the easter egg
active (`clickCount >= 6`) any non-negative integer is accepted. -/
def handleSubmit (mode : TimerMode) (clickCount : Nat) (parsed : Option Int) :
    SubmitResult :=
  let isFocus : Bool := decide (mode = TimerMode.focus)
  let minB : Int := if isFocus then 5 else 1
  let maxB : Int := if isFocus then 60 else 30
  let isEasterEggActive : Bool := decide (6 ≤ clickCount)
  let outOfRange : Bool :=
    match parsed with
    | none => true
    | some m => decide (m < minB) || decide (maxB < m)
  let invalidNumber : Bool :=
    match parsed with
    | none => true
    | some m => decide (m < 0)
  if !isEasterEggActive && outOfRange then
    .rejected ("Value between " ++ toString minB ++ " and " ++ toString maxB)
  else if isEasterEggActive && invalidNumber then
    .rejected "Enter a valid number"
  else
    .confirmed (parsed.getD 0)

/-- The submit handler lifted to the application: a rejected submit leaves
the timer state and the store untouched; a confirmed one calls
`updateDuration`. -/
def submitOnApp (mode : TimerMode) (clickCount : Nat) (parsed : Option Int)
    (st : Store) (s : TimerState) : TimerState × Store :=
  match handleSubmit mode clickCount parsed with
  | .rejected _ => (s, st)
  | .confirmed mins => updateDuration mins st s

/-! ### Concrete values used by counterexamples and witnesses -/

/-- A store with both duration keys absent (fresh `localStorage`). -/
def emptyStore : Store := { focusDur := none, breakDur := none }

/-- The state built by `App` over a fresh store. -/
def freshState : TimerState := initState emptyStore none none none false

/-- A fresh running session of 3 seconds. -/
def runState3 : TimerState :=
  { freshState with
    status := TimerStatus.running
    duration := 3
    remainingTime := 3 }

/-- A running Break session on its last second with the cycle flag set. -/
def brkLastSecond : TimerState :=
  { freshState with
    mode := TimerMode.brk
    status := TimerStatus.running
    duration := 300
    remainingTime := 1
    focusCompletedInCurrentCycle := true }

/-! ### Helper lemmas -/

theorem jsRound_intCast (n : Int) : jsRound (n : ℚ) = n := by
  unfold jsRound
  rw [Int.floor_int_add]
  norm_num

theorem jsRound_mul_six_div_six (r : Int) : jsRound (((r * 6 : Int) : ℚ) / 6) = r := by
  have h : (((r * 6 : Int) : ℚ) / 6) = (r : ℚ) := by push_cast; ring
  rw [h, jsRound_intCast]

theorem getMinutesForAngle_eq (angle : ℚ) (mV xV : Int) :
    getMinutesForAngle angle mV xV =
      min (max (if jsRound (angle / 6) = 0 then 60 else jsRound (angle / 6)) mV) xV := rfl

/-! ### Claim theorems -/

/-- **C7.** Angle-mapping round trip: for every integer `m` with
`minMinutes ≤ m ≤ maxMinutes`, where the bounds pair is `(5, 60)` for
Focus or `(1, 30)` for Break,
`minutesFromAngle (angleFromMinutes m) = m` — including `m = 60`, whose
display angle is `0` degrees. -/
theorem dial_round_trip (mV xV m : Int)
    (hb : (mV = 5 ∧ xV = 60) ∨ (mV = 1 ∧ xV = 30))
    (hlo : mV ≤ m) (hhi : m ≤ xV) :
    getMinutesForAngle ((getAngleForMinutes m : Int) : ℚ) mV xV = m := by
  have hm1 : 1 ≤ m := by rcases hb with ⟨h1, _⟩ | ⟨h1, _⟩ <;> omega
  have hm60 : m ≤ 60 := by rcases hb with ⟨_, h2⟩ | ⟨_, h2⟩ <;> omega
  rw [getMinutesForAngle_eq]
  unfold getAngleForMinutes
  rw [jsRound_mul_six_div_six]
  rcases eq_or_lt_of_le hm60 with h60 | hlt
  · -- m = 60: angle is 0°, the raw rounded value 0 wraps back to 60
    subst h60
    have hx : xV = 60 := by rcases hb with ⟨_, h2⟩ | ⟨_, h2⟩ <;> omega
    subst hx
    have htm : Int.tmod 60 60 = 0 := by decide
    rw [htm, if_pos rfl]
    simp only [min_def, max_def]
    split_ifs <;> omega
  · have htm : Int.tmod m 60 = m := Int.tmod_eq_of_lt (by omega) hlt
    rw [htm, if_neg (by omega : ¬(m = 0))]
    simp only [min_def, max_def]
    split_ifs <;> omega

/-- Witness for C7 at the concrete input `m = 25` in Focus bounds. -/
theorem dial_round_trip_witness :
    (5 : Int) ≤ 25 ∧ (25 : Int) ≤ 60 ∧
      getMinutesForAngle ((getAngleForMinutes 25 : Int) : ℚ) 5 60 = 25 :=
  ⟨by decide, by decide, dial_round_trip 5 60 25 (Or.inl ⟨rfl, rfl⟩) (by decide) (by decide)⟩

/-- **C8.** For every angle in `[0, 360)` and bounds with
`1 ≤ minMinutes ≤ maxMinutes ≤ 60`, `minutesFromAngle` returns a value in
`[minMinutes, maxMinutes]` — in particular never `0` — and an angle of
exactly `0` degrees yields the raw value 60, clamped to the mode's
maximum when that maximum is below 60. -/
theorem minutesForAngle_bounds (angle : ℚ) (mV xV : Int)
    (h0 : 0 ≤ angle) (h360 : angle < 360)
    (h1 : 1 ≤ mV) (h2 : mV ≤ xV) (h3 : xV ≤ 60) :
    mV ≤ getMinutesForAngle angle mV xV ∧
    getMinutesForAngle angle mV xV ≤ xV ∧
    getMinutesForAngle angle mV xV ≠ 0 ∧
    getMinutesForAngle 0 mV xV = min 60 xV := by
  have hzero : jsRound ((0 : ℚ) / 6) = 0 := by
    norm_num [jsRound]
  refine ⟨?_, ?_, ?_, ?_⟩
  · unfold getMinutesForAngle
    simp only [min_def, max_def]
    split_ifs <;> omega
  · unfold getMinutesForAngle
    simp only [min_def, max_def]
    split_ifs <;> omega
  · unfold getMinutesForAngle
    simp only [min_def, max_def]
    split_ifs <;> omega
  · unfold getMinutesForAngle
    rw [hzero]
    simp only [if_pos rfl, min_def, max_def]
    split_ifs <;> omega

/-- Witness for C8 at angle `0` with the Break bounds `(1, 30)`. -/
theorem minutesForAngle_bounds_witness :
    (1 : Int) ≤ getMinutesForAngle 0 1 30 ∧
    getMinutesForAngle 0 1 30 ≤ 30 ∧
    getMinutesForAngle 0 1 30 ≠ 0 ∧
    getMinutesForAngle 0 1 30 = min 60 30 :=
  minutesForAngle_bounds 0 1 30 (by norm_num) (by norm_num) (by decide)
    (by decide) (by decide)

/-- A `tick` with at least 2 seconds left only decrements the clock. -/
theorem tick_decrement {s : TimerState} (h : 2 ≤ s.remainingTime) :
    tick s = { s with remainingTime := s.remainingTime - 1 } := by
  unfold tick
  rw [if_neg (by omega)]

/-- A `tick` with at most 1 second left zeroes the clock and alarms. -/
theorem tick_finish {s : TimerState} (h : s.remainingTime ≤ 1) :
    (tick s).remainingTime = 0 ∧ (tick s).status = TimerStatus.alarm := by
  unfold tick
  rw [if_pos h]
  exact ⟨rfl, rfl⟩

/-- Iterating `tick` fewer times than the clock value only counts down. -/
theorem tick_iterate_lt {s : TimerState} {n : ℕ} (hrem : s.remainingTime = (n : Int)) :
    ∀ k : ℕ, k < n → tick^[k] s = { s with remainingTime := (n : Int) - (k : Int) } := by
  intro k
  induction k with
  | zero =>
      intro _
      simp only [Function.iterate_zero_apply, Nat.cast_zero, sub_zero, ← hrem]
  | succ k ih =>
      intro hk
      rw [Function.iterate_succ_apply', ih (by omega)]
      rw [tick_decrement (by simp; omega)]
      have hval : ((n : Int) - (k : Int)) - 1 = (n : Int) - ((k + 1 : ℕ) : Int) := by
        push_cast
        ring
      simp [hval]

/-- **C2.** While running: with `remainingTime ≥ 2` a `tick` decrements the
clock by exactly 1 and changes no other field; with `remainingTime ≤ 1` it
zeroes the clock and enters Alarm.  From a fresh running session of
duration `n ≥ 1`, the first `n - 1` ticks keep the status Running with
`remainingTime = n - k`, and the `n`-th tick is the single transition to
Alarm, with `remainingTime = 0`. -/
theorem tick_running_behavior (s : TimerState) (hrun : s.status = TimerStatus.running) :
    (2 ≤ s.remainingTime →
      tick s = { s with remainingTime := s.remainingTime - 1 }) ∧
    (s.remainingTime ≤ 1 →
      (tick s).remainingTime = 0 ∧ (tick s).status = TimerStatus.alarm) ∧
    (∀ n : ℕ, 1 ≤ n → s.duration = (n : Int) → s.remainingTime = (n : Int) →
      (∀ k : ℕ, k < n →
        (tick^[k] s).status = TimerStatus.running ∧
        (tick^[k] s).remainingTime = (n : Int) - (k : Int)) ∧
      (tick^[n] s).status = TimerStatus.alarm ∧
      (tick^[n] s).remainingTime = 0) := by
  refine ⟨fun h => tick_decrement h, fun h => tick_finish h, ?_⟩
  intro n hn _hdur hrem
  constructor
  · intro k hk
    rw [tick_iterate_lt hrem k hk]
    exact ⟨hrun, rfl⟩
  · obtain ⟨m, rfl⟩ : ∃ m, n = m + 1 := ⟨n - 1, by omega⟩
    rw [Function.iterate_succ_apply', tick_iterate_lt hrem m (by omega)]
    have hlast :
        ({ s with remainingTime := ((m + 1 : ℕ) : Int) - (m : Int) } : TimerState).remainingTime ≤ 1 := by
      simp
    obtain ⟨h1, h2⟩ := tick_finish hlast
    exact ⟨h2, h1⟩

/-- Witness for C2: a fresh 3-second running session. -/
theorem tick_running_behavior_witness :
    (tick^[2] runState3).status = TimerStatus.running ∧
    (tick^[3] runState3).status = TimerStatus.alarm :=
  ⟨(((tick_running_behavior runState3 rfl).2.2 3 (by decide) rfl rfl).1 2 (by decide)).1,
   ((tick_running_behavior runState3 rfl).2.2 3 (by decide) rfl rfl).2.1⟩

/-- **C3.** Completion bookkeeping on the tick that reaches zero: a Focus
finish sets the cycle flag, adds `floor(duration/60)` to `totalFocusTime`
and leaves `sessionsCount` untouched; a Break finish adds
`floor(duration/60)` to `totalBreakTime`, increments `sessionsCount` by
exactly 1 iff the cycle flag was set beforehand (never otherwise), and
leaves the flag cleared. -/
theorem tick_zero_bookkeeping (s : TimerState)
    (hrun : s.status = TimerStatus.running) (hfin : s.remainingTime ≤ 1) :
    (s.mode = TimerMode.focus →
      (tick s).focusCompletedInCurrentCycle = true ∧
      (tick s).totalFocusTime = s.totalFocusTime + jsFloorDiv60 s.duration ∧
      (tick s).totalBreakTime = s.totalBreakTime ∧
      (tick s).sessionsCount = s.sessionsCount) ∧
    (s.mode = TimerMode.brk →
      (tick s).totalBreakTime = s.totalBreakTime + jsFloorDiv60 s.duration ∧
      (tick s).totalFocusTime = s.totalFocusTime ∧
      ((tick s).sessionsCount = s.sessionsCount + 1 ↔
        s.focusCompletedInCurrentCycle = true) ∧
      (tick s).focusCompletedInCurrentCycle = false ∧
      (s.focusCompletedInCurrentCycle = false →
        (tick s).sessionsCount = s.sessionsCount)) := by
  unfold tick
  rw [if_pos hfin]
  constructor
  · intro hm
    simp [hm]
  · intro hm
    rcases hfc : s.focusCompletedInCurrentCycle <;> simp [hm, hfc]

/-- Witness for C3: a Break finish with the cycle flag set increments
`sessionsCount`. -/
theorem tick_zero_bookkeeping_witness :
    (tick brkLastSecond).sessionsCount = brkLastSecond.sessionsCount + 1 :=
  ((tick_zero_bookkeeping brkLastSecond rfl (by decide)).2 rfl).2.2.1.mpr rfl

/-- **C5.** `resetTimer` with the config overlay open restores the
mode's factory default (Focus 1500 s, Break 300 s) into both `duration`
and `remainingTime` and persists it under the mode's duration key;
without the overlay it keeps `duration` and the store untouched and only
restores `remainingTime`.  Either way status becomes Idle and the cycle
flag is cleared. -/
theorem resetTimer_behavior (st : Store) (s : TimerState) :
    (resetTimer st s).1.status = TimerStatus.idle ∧
    (resetTimer st s).1.focusCompletedInCurrentCycle = false ∧
    (resetTimer st s).1.duration =
      (if s.configOpen then DEFAULTS s.mode else s.duration) ∧
    (resetTimer st s).1.remainingTime =
      (if s.configOpen then DEFAULTS s.mode else s.duration) ∧
    (resetTimer st s).2 =
      (if s.configOpen then st.set s.mode (DEFAULTS s.mode) else st) ∧
    DEFAULTS TimerMode.focus = 1500 ∧ DEFAULTS TimerMode.brk = 300 := by
  by_cases hc : s.configOpen <;>
    simp [resetTimer, hc, DEFAULTS]

/-- **C6.** `skipTimer` clears the cycle flag, flips the mode, loads the
new mode's persisted duration (its factory default when the key is
absent) into both `duration` and `remainingTime`, goes Idle, and never
changes `sessionsCount`. -/
theorem skipTimer_behavior (st : Store) (s : TimerState) :
    (skipTimer st s).focusCompletedInCurrentCycle = false ∧
    (skipTimer st s).mode = otherMode s.mode ∧
    otherMode TimerMode.focus = TimerMode.brk ∧
    otherMode TimerMode.brk = TimerMode.focus ∧
    (skipTimer st s).duration =
      (st.get (otherMode s.mode)).getD (DEFAULTS (otherMode s.mode)) ∧
    (skipTimer st s).remainingTime = (skipTimer st s).duration ∧
    (skipTimer st s).status = TimerStatus.idle ∧
    (skipTimer st s).sessionsCount = s.sessionsCount := by
  refine ⟨?_, ?_, rfl, rfl, ?_, ?_, ?_, ?_⟩ <;>
    simp [skipTimer, switchMode, getSavedDuration]

/-! ### Reachability and invariants -/

/-- Well-formed duration store: every stored duration is non-negative.
Every write the application performs (`updateDuration` with a validated
non-negative minute count, `resetTimer` with a factory default) keeps
this true. -/
def WFStore (st : Store) : Prop :=
  ∀ m v, st.get m = some v → 0 ≤ v

/-- The state predicate of the invariant claims: the clock stays within
`[0, duration]`, an alarm state has a zeroed clock, and the config
overlay is never open while running. -/
def GoodState (s : TimerState) : Prop :=
  0 ≤ s.remainingTime ∧ s.remainingTime ≤ s.duration ∧
    (s.status = TimerStatus.alarm → s.remainingTime = 0) ∧
    (s.status = TimerStatus.running → s.configOpen = false)

/-- Configurations reachable by the application: the initial state over a
well-formed store, closed under every state-machine operation.
`updateDuration` is only ever invoked with the validated non-negative
minute counts produced by the dial and the input modal. -/
inductive Reachable : TimerState × Store → Prop where
  | init (st : Store) (ss ft bt : Option Int) (cf : Bool) (hw : WFStore st) :
      Reachable (initState st ss ft bt cf, st)
  | toggle {s : TimerState} {st : Store} :
      Reachable (s, st) → Reachable (toggleTimer st s, st)
  | tickStep {s : TimerState} {st : Store} :
      Reachable (s, st) → Reachable (tick s, st)
  | switch {s : TimerState} {st : Store} :
      Reachable (s, st) → Reachable (switchMode st s, st)
  | skip {s : TimerState} {st : Store} :
      Reachable (s, st) → Reachable (skipTimer st s, st)
  | reset {s : TimerState} {st : Store} :
      Reachable (s, st) → Reachable (resetTimer st s)
  | openCfg {s : TimerState} {st : Store} :
      Reachable (s, st) → Reachable (openConfig s, st)
  | closeCfg {s : TimerState} {st : Store} :
      Reachable (s, st) → Reachable (closeConfig s, st)
  | update {s : TimerState} {st : Store} (m : Int) (hm : 0 ≤ m) :
      Reachable (s, st) → Reachable (updateDuration m st s)
  | clear {s : TimerState} {st : Store} :
      Reachable (s, st) → Reachable (clearStats s, st)

theorem DEFAULTS_nonneg (m : TimerMode) : 0 ≤ DEFAULTS m := by
  cases m <;> norm_num [DEFAULTS]

theorem getSavedDuration_nonneg {st : Store} (hw : WFStore st) (m : TimerMode) :
    0 ≤ getSavedDuration st m := by
  unfold getSavedDuration
  cases h : st.get m with
  | none => simpa using DEFAULTS_nonneg m
  | some v => simpa using hw m v h

theorem WFStore_set {st : Store} (hw : WFStore st) (m : TimerMode) {v : Int}
    (hv : 0 ≤ v) : WFStore (st.set m v) := by
  intro m' v' h
  cases m <;> cases m' <;> simp [Store.set, Store.get] at h
  case focus.focus => omega
  case focus.brk => exact hw .brk v' h
  case brk.focus => exact hw .focus v' h
  case brk.brk => omega

theorem switchMode_good {st : Store} (hw : WFStore st) (s : TimerState) :
    GoodState (switchMode st s) := by
  refine ⟨?_, ?_, ?_, ?_⟩
  · simpa [switchMode] using getSavedDuration_nonneg hw (otherMode s.mode)
  · simp [switchMode]
  · intro h
    simp [switchMode] at h
  · intro h
    simp [switchMode] at h

theorem reachable_good : ∀ {c : TimerState × Store},
    Reachable c → WFStore c.2 ∧ GoodState c.1 := by
  intro c h
  induction h with
  | init st ss ft bt cf hw =>
      refine ⟨hw, ?_, ?_, ?_, ?_⟩
      · simpa [initState] using getSavedDuration_nonneg hw .focus
      · simp [initState]
      · intro h
        simp [initState] at h
      · intro h
        simp [initState] at h
  | @toggle s st _ ih =>
      obtain ⟨hw, h0, h1, h2, h3⟩ := ih
      refine ⟨hw, ?_⟩
      by_cases halarm : s.status = TimerStatus.alarm
      · unfold toggleTimer
        rw [if_pos halarm]
        exact switchMode_good hw s
      · unfold toggleTimer
        rw [if_neg halarm]
        refine ⟨h0, h1, ?_, ?_⟩
        · intro hcontra
          by_cases hrun : s.status = TimerStatus.running <;> simp [hrun] at hcontra
        · intro _
          rfl
  | @tickStep s st _ ih =>
      obtain ⟨hw, h0, h1, h2, h3⟩ := ih
      have h0' : 0 ≤ s.remainingTime := h0
      have h1' : s.remainingTime ≤ s.duration := h1
      have h2' : s.status = TimerStatus.alarm → s.remainingTime = 0 := h2
      refine ⟨hw, ?_⟩
      by_cases hle : s.remainingTime ≤ 1
      · obtain ⟨e0, e1⟩ := tick_finish hle
        have ed : (tick s).duration = s.duration := by
          unfold tick
          rw [if_pos hle]
        refine ⟨?_, ?_, ?_, ?_⟩
        · simp [e0]
        · rw [e0, ed]
          omega
        · intro _
          exact e0
        · intro hr
          rw [e1] at hr
          simp at hr
      · have hge2 : 2 ≤ s.remainingTime := by omega
        rw [tick_decrement hge2]
        refine ⟨?_, ?_, ?_, ?_⟩
        · show 0 ≤ s.remainingTime - 1
          omega
        · show s.remainingTime - 1 ≤ s.duration
          omega
        · intro hal
          exact absurd (h2' hal) (by omega)
        · intro hr
          exact h3 hr
  | @switch s st _ ih =>
      obtain ⟨hw, _⟩ := ih
      exact ⟨hw, switchMode_good hw s⟩
  | @skip s st _ ih =>
      obtain ⟨hw, _⟩ := ih
      exact ⟨hw, switchMode_good hw _⟩
  | @reset s st _ ih =>
      obtain ⟨hw, h0, h1, h2, h3⟩ := ih
      have h0' : 0 ≤ s.remainingTime := h0
      have h1' : s.remainingTime ≤ s.duration := h1
      by_cases hc : s.configOpen
      · unfold resetTimer
        rw [if_pos hc]
        constructor
        · exact WFStore_set hw s.mode (DEFAULTS_nonneg s.mode)
        · refine ⟨DEFAULTS_nonneg s.mode, le_refl _, ?_, ?_⟩ <;> intro h <;> simp at h
      · unfold resetTimer
        rw [if_neg hc]
        constructor
        · exact hw
        · refine ⟨?_, le_refl _, ?_, ?_⟩
          · show 0 ≤ s.duration
            omega
          · intro h
            simp at h
          · intro h
            simp at h
  | @openCfg s st _ ih =>
      obtain ⟨hw, h0, h1, h2, h3⟩ := ih
      have h0' : 0 ≤ s.remainingTime := h0
      have h1' : s.remainingTime ≤ s.duration := h1
      refine ⟨hw, ?_, le_refl _, ?_, ?_⟩
      · show 0 ≤ s.duration
        omega
      · intro h
        simp [openConfig] at h
      · intro h
        simp [openConfig] at h
  | @closeCfg s st _ ih =>
      obtain ⟨hw, h0, h1, h2, h3⟩ := ih
      exact ⟨hw, h0, h1, h2, fun _ => rfl⟩
  | @update s st m hm _ ih =>
      obtain ⟨hw, h0, h1, h2, h3⟩ := ih
      have hns : 0 ≤ (if m = 0 then (1 : Int) else m * 60) := by
        split_ifs
        · norm_num
        · exact mul_nonneg hm (by norm_num)
      constructor
      · exact WFStore_set hw s.mode (mul_nonneg hm (by norm_num))
      · refine ⟨hns, le_refl _, ?_, ?_⟩ <;> intro h <;> simp [updateDuration] at h
  | @clear s st _ ih =>
      obtain ⟨hw, h0, h1, h2, h3⟩ := ih
      exact ⟨hw, h0, h1, h2, h3⟩

/-- **C4.** In every reachable configuration the timer state satisfies
`0 ≤ remainingTime ≤ duration`, and an Alarm status implies a zeroed
clock: the predicate holds in the initial state and is preserved by
every state-machine operation. -/
theorem reachable_state_invariant {c : TimerState × Store} (h : Reachable c) :
    0 ≤ c.1.remainingTime ∧ c.1.remainingTime ≤ c.1.duration ∧
      (c.1.status = TimerStatus.alarm → c.1.remainingTime = 0) :=
  ⟨(reachable_good h).2.1, (reachable_good h).2.2.1, (reachable_good h).2.2.2.1⟩

/-- Witness for C4 at the initial configuration over a fresh store. -/
theorem reachable_state_invariant_witness :
    0 ≤ freshState.remainingTime ∧
      freshState.remainingTime ≤ freshState.duration ∧
      (freshState.status = TimerStatus.alarm → freshState.remainingTime = 0) :=
  reachable_state_invariant (c := (freshState, emptyStore))
    (Reachable.init emptyStore none none none false
      (by intro m v hv; cases m <;> simp [Store.get, emptyStore] at hv))

/-- **C10.** Implicit invariant: in every reachable configuration,
a Running status forces the config overlay closed — the only transition
into Running simultaneously clears `configOpen`, and `openConfig` forces
Paused. -/
theorem reachable_running_closes_config {c : TimerState × Store} (h : Reachable c) :
    c.1.status = TimerStatus.running → c.1.configOpen = false :=
  (reachable_good h).2.2.2.2

/-- Witness for C10: toggling the fresh idle state starts it running with
the overlay closed. -/
theorem reachable_running_closes_config_witness :
    (toggleTimer emptyStore freshState).configOpen = false :=
  reachable_running_closes_config
    (c := (toggleTimer emptyStore freshState, emptyStore))
    (Reachable.toggle (Reachable.init emptyStore none none none false
      (by intro m v hv; cases m <;> simp [Store.get, emptyStore] at hv)))
    (by decide)

/-- **C9.** The manual-entry submit handler confirms (and only then
invokes the duration update) exactly when the parsed input is an integer
within `[5, 60]` (Focus) or `[1, 30]` (Break) while the unrestricted
easter egg (six title clicks) is inactive, or a non-negative integer
while it is active; every rejected submit surfaces an error message and
leaves the timer state and the store untouched. -/
theorem handleSubmit_behavior (mode : TimerMode) (clickCount : Nat) (parsed : Option Int)
    (st : Store) (s : TimerState) :
    (∀ m : Int,
      handleSubmit mode clickCount parsed = SubmitResult.confirmed m ↔
        (parsed = some m ∧
          ((clickCount < 6 ∧
              (if mode = TimerMode.focus then (5 : Int) else 1) ≤ m ∧
              m ≤ (if mode = TimerMode.focus then (60 : Int) else 30)) ∨
            (6 ≤ clickCount ∧ 0 ≤ m)))) ∧
    (∀ msg, handleSubmit mode clickCount parsed = SubmitResult.rejected msg →
      submitOnApp mode clickCount parsed st s = (s, st)) := by
  constructor
  · intro m
    cases mode <;> rcases parsed with _ | m0 <;>
      by_cases hegg : 6 ≤ clickCount <;>
      simp [handleSubmit, hegg] <;>
      split_ifs <;>
      simp_all <;>
      omega
  · intro msg hmsg
    unfold submitOnApp
    rw [hmsg]

/-- Witness for C9: out-of-range Focus entry 99 is rejected and the
application state is unchanged. -/
theorem handleSubmit_behavior_witness :
    submitOnApp TimerMode.focus 0 (some 99) emptyStore freshState =
      (freshState, emptyStore) :=
  (handleSubmit_behavior TimerMode.focus 0 (some 99) emptyStore freshState).2
    "Value between 5 and 60" (by decide)

/-- **C1 evaluation.** `updateDuration 0` sets the in-memory `duration`
(and `remainingTime`) to the 1-second floor, but the value persisted
under the current mode's duration key is `0 * 60 = 0`, not the floored
duration: the source writes `(newMinutes * 60).toString()` instead of
`newSeconds`. -/
theorem updateDuration_zero_eval :
    (updateDuration 0 emptyStore freshState).1.duration = 1 ∧
    (updateDuration 0 emptyStore freshState).1.remainingTime = 1 ∧
    (updateDuration 0 emptyStore freshState).1.status = TimerStatus.idle ∧
    (updateDuration 0 emptyStore freshState).1.focusCompletedInCurrentCycle = false ∧
    (updateDuration 0 emptyStore freshState).2.get TimerMode.focus = some 0 ∧
    (initState (updateDuration 0 emptyStore freshState).2
      none none none false).duration = 0 := by
  refine ⟨rfl, rfl, rfl, rfl, rfl, rfl⟩

end Pomodoro
